import Mathlib

/-!
Shallow embedding of the single-node ledger engine (blocks, transactions,
account table, append/rollback, chain validation) from the Rust sources
`src/types/{account,block,blockchain,chain,transaction}.rs`.

Modelling conventions:
* `u128` values (balances, nonces, timestamps) are `Nat`; overflow-relevant
  operations carry an explicit `2 ^ 128` bound (`checked_add`, `checked_sub`)
  or an explicit `% 2 ^ 128` where the source uses plain `+=`.
* The Blake2s digests are modelled symbolically: a transaction hash is the
  tuple the source formats into the digested preimage
  `(nonce, timestamp, data, from)`, and a block hash is the symbolic record
  of `(prev_hash, nonce, transaction hashes)` the source feeds to the hasher.
  Distinct preimages give distinct hashes, which is the intended reading of
  a cryptographic digest.
* ed25519 public keys and signatures are opaque (`Nat`); signature
  verification is an explicit function argument `edv`, since it is an
  external primitive (`ed25519_dalek`).
* A Rust function that can panic (`Option::unwrap` on `None`, which happens
  in `Transaction::execute` for a `Transfer` whose `from` is unset when the
  signature check is skipped) is modelled with an outer `Option`: `none`
  means the Rust code panics.
* Stateful functions that mutate `&mut` state return the post-state paired
  with the `Result`, so partial mutation before an error (as in `transfer`)
  is preserved.
* The `HashMap<AccountId, Account>` account table is an association list;
  `get_account_by_id_mut` followed by a balance write is `setBalance`, which
  rewrites the entry with the matching id.
-/

abbrev AccountId := String
abbrev Balance := Nat
abbrev Timestamp := Nat
abbrev Error := String
abbrev PublicKey := Nat
abbrev Signature := Nat

inductive AccountType where
  | User
  | Contract
deriving DecidableEq, Repr

structure Account where
  account_type : AccountType
  balance : Balance
  public_key : PublicKey
deriving DecidableEq, Repr

/-- Rust `Account::new`: fresh account with balance 0. -/
def Account.new (account_type : AccountType) (public_key : PublicKey) : Account :=
  { account_type := account_type, balance := 0, public_key := public_key }

inductive TransactionData where
  | CreateAccount (id : AccountId) (pk : PublicKey)
  | Transfer (toId : AccountId) (amount : Balance)
  | MintInitialSupply (toId : AccountId) (amount : Balance)
deriving DecidableEq, Repr

structure Transaction where
  nonce : Nat
  timestamp : Timestamp
  data : TransactionData
  sender : Option AccountId    -- the Rust field `from` (a keyword in Lean)
  signature : Option Signature
deriving DecidableEq, Repr

/-- Rust `Transaction::new`. -/
def Transaction.new (data : TransactionData) (sender : Option AccountId) : Transaction :=
  { nonce := 0, timestamp := 0, data := data, sender := sender, signature := none }

/-- Rust `Transaction::add_signature`. -/
def Transaction.add_signature (t : Transaction) (s : Signature) : Transaction :=
  { t with signature := some s }

/-- Symbolic transaction digest: the Rust `Hashable for Transaction` formats
exactly `(nonce, timestamp, data, from)` into the digested preimage, so the
hash is modelled as that tuple. -/
structure TxHash where
  nonce : Nat
  timestamp : Timestamp
  data : TransactionData
  sender : Option AccountId
deriving DecidableEq, Repr

/-- Rust `Transaction::hash` (the `Hashable` impl). -/
def Transaction.hash (t : Transaction) : TxHash :=
  { nonce := t.nonce, timestamp := t.timestamp, data := t.data, sender := t.sender }

/-- Symbolic block digest: the Rust `Hashable for Block` hashes the formatted
`(prev_hash, nonce)` followed by every transaction hash in order.  The two
constructors mirror `prev_hash : Option` being `None` or `Some`. -/
inductive Hash where
  | genesisH (nonce : Nat) (txs : List TxHash)
  | blockH (prev : Hash) (nonce : Nat) (txs : List TxHash)
deriving DecidableEq, Repr

instance : Inhabited Hash := ⟨.genesisH 0 []⟩

structure Block where
  nonce : Nat
  hash : Option Hash
  prev_hash : Option Hash
  transactions : List Transaction
deriving DecidableEq, Repr

/-- Rust `Block::hash` (the `Hashable` impl), freshly recomputed from the
current fields. -/
def blockHash (b : Block) : Hash :=
  match b.prev_hash with
  | none => .genesisH b.nonce (b.transactions.map Transaction.hash)
  | some p => .blockH p b.nonce (b.transactions.map Transaction.hash)

/-- Rust `Block::verify` (the `Verifiable` impl):
`matches!(&self.hash, Some(hash) if hash == &self.hash())`. -/
def Block.verify (b : Block) : Bool :=
  decide (b.hash = some (blockHash b))

/-- Rust `Block::new`. -/
def Block.new (prev_hash : Option Hash) : Block :=
  { nonce := 0, hash := none, prev_hash := prev_hash, transactions := [] }

/-- Rust `Block::update_hash`. -/
def Block.update_hash (b : Block) : Block :=
  { b with hash := some (blockHash b) }

/-- Rust `Block::set_nonce`. -/
def Block.set_nonce (b : Block) (n : Nat) : Block :=
  Block.update_hash { b with nonce := n }

/-- Rust `Block::add_transaction`. -/
def Block.add_transaction (b : Block) (tx : Transaction) : Block :=
  Block.update_hash { b with transactions := b.transactions ++ [tx] }

/-- The account table (`HashMap<AccountId, Account>` in the source). -/
abbrev Accounts := List (AccountId × Account)

/-- Rust `WorldState::get_account_by_id` on `Blockchain` (`HashMap::get`). -/
def getAccount (st : Accounts) (id : AccountId) : Option Account :=
  match st with
  | [] => none
  | (k, a) :: rest => if k = id then some a else getAccount rest id

/-- Writing a new balance through the mutable handle returned by
`get_account_by_id_mut`: the entry with the matching id gets the new
balance, every other entry is untouched. -/
def setBalance (st : Accounts) (id : AccountId) (b : Balance) : Accounts :=
  match st with
  | [] => []
  | (k, a) :: rest =>
      if k = id then (k, { a with balance := b }) :: setBalance rest id b
      else (k, a) :: setBalance rest id b

/-- Rust `u128::checked_sub`. -/
def checked_sub (a b : Nat) : Option Nat :=
  if b ≤ a then some (a - b) else none

/-- Rust `u128::checked_add` (bounded by `2 ^ 128`). -/
def checked_add (a b : Nat) : Option Nat :=
  if a + b < 2 ^ 128 then some (a + b) else none

/-- Rust `WorldState::create_account` on `Blockchain`: fails when the id is
occupied, otherwise inserts `Account::new`. -/
def createAccountState (st : Accounts) (account_id : AccountId)
    (account_type : AccountType) (public_key : PublicKey) :
    Accounts × Except Error Unit :=
  match getAccount st account_id with
  | some _ => (st, .error ("AccountId already exist: " ++ account_id))
  | none => (st ++ [(account_id, Account.new account_type public_key)], .ok ())

/-- Rust free function `create_account` in `transaction.rs`: always creates a
`User` account. -/
def create_account (st : Accounts) (account_id : AccountId)
    (public_key : PublicKey) : Accounts × Except Error Unit :=
  createAccountState st account_id .User public_key

/-- Rust free function `mint_initial_supply` in `transaction.rs`.  The credit
is the source's plain `account.balance += amount`, which is NOT checked
arithmetic: with overflow checks off (release profile) it wraps modulo
`2 ^ 128` (and with them on it aborts); it never returns an overflow error. -/
def mint_initial_supply (st : Accounts) (toId : AccountId) (amount : Balance)
    (is_genesis : Bool) : Accounts × Except Error Unit :=
  if !is_genesis then
    (st, .error "Initial Supply can be minted only in genesis block")
  else
    match getAccount st toId with
    | some account =>
        (setBalance st toId ((account.balance + amount) % 2 ^ 128), .ok ())
    | none => (st, .error "Invalid account.")

/-- Rust free function `transfer` in `transaction.rs`: debit the sender
(checked subtraction), then credit the receiver (checked addition).  The
debit persists in the returned state even when the credit step fails. -/
def transfer (st : Accounts) (fromId toId : AccountId) (amount : Balance) :
    Accounts × Except Error Unit :=
  match getAccount st fromId with
  | none => (st, .error "Invalid sender address.")
  | some acc =>
    match checked_sub acc.balance amount with
    | none => (st, .error "Insufficient balance")
    | some new_amount =>
      let st1 := setBalance st fromId new_amount
      match getAccount st1 toId with
      | none => (st1, .error "Invalid receiver address.")
      | some acc2 =>
        match checked_add acc2.balance amount with
        | none => (st1, .error "Balance overflow.")
        | some new_amount2 => (setBalance st1 toId new_amount2, .ok ())

/-- Rust `Transaction::check_signature`.  `edv pk msg sig` stands for
`PublicKey::verify` of the external ed25519 primitive returning `Ok`.
The source's `self.signature.unwrap()` is guarded by the initial
`is_none` test, rendered here as one `match`. -/
def Transaction.check_signature (edv : PublicKey → TxHash → Signature → Bool)
    (t : Transaction) (st : Accounts) : Except Error Unit :=
  match t.signature with
  | none => .error "Signature is missing."
  | some sig =>
    match t.sender with
    | none => .error "Tx \x60from\x60 is not defined."
    | some fromId =>
      match getAccount st fromId with
      | none => .error "Account \x60from\x60 not exist."
      | some account =>
        if edv account.public_key t.hash sig then .ok ()
        else .error "Invalid signature."

/-- Whether the transaction data is a `CreateAccount`, the source's
`matches!(self.data, TransactionData::CreateAccount(_, _))`. -/
def TransactionData.isCreateAccount : TransactionData → Bool
  | .CreateAccount _ _ => true
  | _ => false

/-- The `match &self.data` body of `Transaction::execute` (after the
signature gate).  `none` models the panic of `self.from.clone().unwrap()`
when a `Transfer` has no sender id. -/
def Transaction.applyData (t : Transaction) (st : Accounts)
    (is_genesis : Bool) : Option (Accounts × Except Error Unit) :=
  match t.data with
  | .CreateAccount account_id public_key =>
      some (create_account st account_id public_key)
  | .MintInitialSupply toId amount =>
      some (mint_initial_supply st toId amount is_genesis)
  | .Transfer toId amount =>
      match t.sender with
      | none => none
      | some fromId => some (transfer st fromId toId amount)

/-- Rust `Transaction::execute`: outside genesis, every transaction except
`CreateAccount` must pass `check_signature` first. -/
def Transaction.execute (edv : PublicKey → TxHash → Signature → Bool)
    (t : Transaction) (st : Accounts) (is_genesis : Bool) :
    Option (Accounts × Except Error Unit) :=
  if !is_genesis && !t.data.isCreateAccount then
    match t.check_signature edv st with
    | .error e => some (st, .error e)
    | .ok _ => t.applyData st is_genesis
  else
    t.applyData st is_genesis

structure Blockchain where
  /-- The `Chain<Block>`: a singly linked list whose head is the newest
  block; `Chain::append` prepends and `Chain::len` is the list length. -/
  blocks : List Block
  accounts : Accounts
  transactions_pool : List Transaction
deriving DecidableEq, Repr

/-- Rust `Blockchain::new` (`Default`). -/
def Blockchain.newChain : Blockchain :=
  { blocks := [], accounts := [], transactions_pool := [] }

/-- The transaction loop of `append_block`: execute in order, stop at the
first failure (returning the state reached so far with the raw error);
`none` propagates a panic. -/
def execTxs (edv : PublicKey → TxHash → Signature → Bool)
    (txs : List Transaction) (st : Accounts) (is_genesis : Bool) :
    Option (Accounts × Except Error Unit) :=
  match txs with
  | [] => some (st, .ok ())
  | tx :: rest =>
    match tx.execute edv st is_genesis with
    | none => none
    | some (st1, .error e) => some (st1, .error e)
    | some (st1, .ok _) => execTxs edv rest st1 is_genesis

/-- Rust `Blockchain::append_block`.  The returned pair is the post-call
blockchain and the `Result`; on a transaction failure the accounts are
restored from the pre-loop backup, so the post-call state is the input
state.  `none` models a panic inside a transaction. -/
def Blockchain.append_block (edv : PublicKey → TxHash → Signature → Bool)
    (bc : Blockchain) (block : Block) :
    Option (Blockchain × Except Error Unit) :=
  if !block.verify then some (bc, .error "Block has invalid hash")
  else
    -- `is_genesis = (self.blocks.len() == 0)`, inlined at its three uses
    if !(decide (bc.blocks.length = 0)) && decide (block.transactions.length = 0) then
      some (bc, .error "Block has 0 transaction.")
    else
      match execTxs edv block.transactions bc.accounts (decide (bc.blocks.length = 0)) with
      | none => none
      | some (_, .error e) =>
          -- `self.accounts = account_backup` : verbatim restore
          some (bc, .error ("Error during executing transactions: " ++ e))
      | some (st1, .ok _) =>
          some ({ bc with accounts := st1, blocks := block :: bc.blocks },
                .ok ())

/-- Rust `Blockchain::get_last_block_hash`: the freshly recomputed hash of
the newest block, if any. -/
def Blockchain.get_last_block_hash (bc : Blockchain) : Option Hash :=
  bc.blocks.head?.map blockHash

/-- The `if let Some(prev_block_hash) = &prev_block_hash { prev != hash }`
guard of `validate`. -/
def linkBroken (newerPrev : Option Hash) (h : Hash) : Bool :=
  match newerPrev with
  | none => false
  | some ph => decide (ph ≠ h)

/-- The loop of Rust `Blockchain::validate`: `total` is `self.blocks.len()`,
`blockNum` counts down from it, `newerPrev` is the previous iteration's
`block.prev_hash`.  The linkage comparison uses the source's
`block.hash.clone().unwrap()`; `getD` stands for that `unwrap`, which is
only reached with the cache present because `verify` has already passed. -/
def validateLoop (total : Nat) (blockNum : Nat) (newerPrev : Option Hash) :
    List Block → Except Error Unit
  | [] => .ok ()
  | b :: rest =>
    if !b.verify then
      .error ("Block " ++ toString blockNum ++ " has invalid hash")
    else if b.prev_hash.isNone && !(decide (blockNum = 1)) then
      .error ("Block " ++ toString blockNum ++ " doesn\x27t have prev_hash")
    else if b.prev_hash.isSome && decide (blockNum = 1) then
      .error "Genesis block shouldn\x27t have prev_hash"
    else if !(decide (blockNum = total)) && linkBroken newerPrev (b.hash.getD default) then
      .error ("Block " ++ toString (blockNum + 1) ++
        " prev_hash doesn\x27t match Block " ++ toString blockNum ++ " hash")
    else validateLoop total (blockNum - 1) b.prev_hash rest

/-- Rust `Blockchain::validate`. -/
def Blockchain.validate (bc : Blockchain) : Except Error Unit :=
  validateLoop bc.blocks.length bc.blocks.length none bc.blocks

/-- Modelled from the spec's words for comparison with `validateLoop`: the
walk from the newest block to genesis, numbering downward from the chain
length to 1, reporting the first violation among a failed `verify`
(invalid hash at that number), a non-genesis block without a predecessor
hash, the genesis block carrying one, and — at every non-newest position —
the newer block's predecessor hash differing from the current block's
hash (the fresh recomputation). -/
def validateLoopSpec (total : Nat) (blockNum : Nat) (newerPrev : Option Hash) :
    List Block → Except Error Unit
  | [] => .ok ()
  | b :: rest =>
    if !b.verify then
      .error ("Block " ++ toString blockNum ++ " has invalid hash")
    else if b.prev_hash.isNone && !(decide (blockNum = 1)) then
      .error ("Block " ++ toString blockNum ++ " doesn\x27t have prev_hash")
    else if b.prev_hash.isSome && decide (blockNum = 1) then
      .error "Genesis block shouldn\x27t have prev_hash"
    else if !(decide (blockNum = total)) && linkBroken newerPrev (blockHash b) then
      .error ("Block " ++ toString (blockNum + 1) ++
        " prev_hash doesn\x27t match Block " ++ toString blockNum ++ " hash")
    else validateLoopSpec total (blockNum - 1) b.prev_hash rest

/-- The spec-side `validate`. -/
def Blockchain.validateSpec (bc : Blockchain) : Except Error Unit :=
  validateLoopSpec bc.blocks.length bc.blocks.length none bc.blocks

/-! ## Auxiliary predicates and concrete fixtures -/

/-- Whether the transaction data is a `Transfer` (used to state which
executions reach the source's `self.from.clone().unwrap()`). -/
def TransactionData.isTransfer : TransactionData → Bool
  | .Transfer _ _ => true
  | _ => false

/-- The two mutators `Block` exposes besides construction. -/
inductive BlockOp where
  | setNonce (n : Nat)
  | addTx (t : Transaction)

def applyOp (b : Block) : BlockOp → Block
  | .setNonce n => b.set_nonce n
  | .addTx t => b.add_transaction t

def applyOps (b : Block) (ops : List BlockOp) : Block :=
  ops.foldl applyOp b

/-- A signature-verification stand-in that accepts everything (for concrete
instances; the theorems quantify over the verifier). -/
def edv0 : PublicKey → TxHash → Signature → Bool := fun _ _ _ => true

def txAlice : Transaction := Transaction.new (.CreateAccount "alice" 7) none

/-- A block holding [CreateAccount("alice"), CreateAccount("alice")]. -/
def blkAA : Block :=
  (((Block.new none).set_nonce 1).add_transaction txAlice).add_transaction txAlice

def bc0 : Blockchain := Blockchain.newChain

/-! ## Helper lemmas -/

theorem verify_eq_true_iff (b : Block) :
    b.verify = true ↔ b.hash = some (blockHash b) := by
  simp [Block.verify]

theorem blockHash_injective (b b' : Block) (h : blockHash b = blockHash b') :
    b.prev_hash = b'.prev_hash ∧ b.nonce = b'.nonce ∧
      b.transactions.map Transaction.hash = b'.transactions.map Transaction.hash := by
  unfold blockHash at h
  cases hb : b.prev_hash <;> cases hb' : b'.prev_hash <;>
    rw [hb, hb'] at h <;> simp_all

theorem getAccount_append_single (st : Accounts) (id x : AccountId) (a : Account) :
    getAccount (st ++ [(id, a)]) x =
      match getAccount st x with
      | some b => some b
      | none => if id = x then some a else none := by
  induction st with
  | nil => simp [getAccount]
  | cons e rest ih =>
    by_cases he : e.fst = x
    · simp [getAccount, he]
    · simpa [getAccount, he] using ih

theorem getAccount_setBalance_same (st : Accounts) (id : AccountId) (b : Balance) :
    getAccount (setBalance st id b) id =
      (getAccount st id).map (fun a => { a with balance := b }) := by
  induction st with
  | nil => rfl
  | cons e rest ih =>
    obtain ⟨k, a⟩ := e
    by_cases he : k = id
    · subst he
      simp [getAccount, setBalance]
    · simp [getAccount, setBalance, he, ih]

theorem getAccount_setBalance_other (st : Accounts) (id x : AccountId)
    (b : Balance) (hx : x ≠ id) :
    getAccount (setBalance st id b) x = getAccount st x := by
  induction st with
  | nil => rfl
  | cons e rest ih =>
    obtain ⟨k, a⟩ := e
    by_cases he : k = id
    · subst he
      have hkx : ¬ k = x := fun h => hx h.symm
      simp [getAccount, setBalance, hkx, ih]
    · by_cases hkx : k = x <;> simp [getAccount, setBalance, he, hkx, hx, ih]

/-! ## Claim theorems -/

/-- C1: whenever `append_block` returns an error, the post-call accounts
table equals its pre-call value and the chain (its blocks, hence its
length) is unchanged. -/
theorem append_block_error_rolls_back
    (edv : PublicKey → TxHash → Signature → Bool) (bc : Blockchain)
    (block : Block) (bc1 : Blockchain) (e : Error)
    (h : bc.append_block edv block = some (bc1, .error e)) :
    bc1.accounts = bc.accounts ∧ bc1.blocks = bc.blocks ∧
      bc1.blocks.length = bc.blocks.length := by
  unfold Blockchain.append_block at h
  split at h
  · simp_all
  · split at h
    · simp_all
    · split at h <;> simp_all

/-- C1 witness: a block whose transactions are
[CreateAccount("alice"), CreateAccount("alice")] fails, the error wraps
the AccountAlreadyExists message, and account "alice" does not exist
afterwards. -/
theorem append_block_error_rolls_back_witness :
    bc0.append_block edv0 blkAA =
      some (bc0,
        .error "Error during executing transactions: AccountId already exist: alice")
    ∧ getAccount bc0.accounts "alice" = none
    ∧ (bc0.accounts = bc0.accounts ∧ bc0.blocks = bc0.blocks ∧
        bc0.blocks.length = bc0.blocks.length) :=
  ⟨rfl, rfl,
    append_block_error_rolls_back edv0 bc0 blkAA bc0
      "Error during executing transactions: AccountId already exist: alice" rfl⟩

def stMax : Accounts :=
  [("satoshi", { account_type := .User, balance := 2 ^ 128 - 1, public_key := 5 })]

/-- C3: the code evaluated at the failing input.  The claim (and the spec's
normative text) requires the mint credit to use checked addition and fail
with Overflow on wraparound; the source's `account.balance += amount` is
unchecked, so minting 1 to an account holding `u128::MAX` in genesis
returns Ok with the balance wrapped to 0 instead of an Overflow error. -/
theorem mint_overflow_wraps_not_error :
    mint_initial_supply stMax "satoshi" 1 true =
      ([("satoshi", { account_type := .User, balance := 0, public_key := 5 })],
        .ok ()) := rfl

/-- C9: `Transaction::hash` depends only on (nonce, timestamp, data, sender
id), and `add_signature` never changes the hash. -/
theorem tx_hash_ignores_signature :
    (∀ t1 t2 : Transaction, t1.nonce = t2.nonce → t1.timestamp = t2.timestamp →
        t1.data = t2.data → t1.sender = t2.sender → t1.hash = t2.hash) ∧
      ∀ (t : Transaction) (s : Signature), (t.add_signature s).hash = t.hash := by
  constructor
  · intro t1 t2 h1 h2 h3 h4
    simp [Transaction.hash, h1, h2, h3, h4]
  · intro t s
    rfl

/-- C9 witness at a concrete transaction and signature. -/
theorem tx_hash_ignores_signature_witness :
    (txAlice.add_signature 3).hash = txAlice.hash ∧
      txAlice.hash = (txAlice.add_signature 3).hash :=
  ⟨tx_hash_ignores_signature.2 txAlice 3,
    tx_hash_ignores_signature.1 txAlice (txAlice.add_signature 3) rfl rfl rfl rfl⟩

/-- C10: executing CreateAccount(id, pk) always delegates to account
creation with type `User` (never `Contract`), and on success the stored
account has balance 0 and public key pk, with no other account changed. -/
theorem create_account_user_zero_balance :
    (∀ (edv : PublicKey → TxHash → Signature → Bool) (t : Transaction)
        (st : Accounts) (g : Bool) (id : AccountId) (pk : PublicKey),
        t.data = .CreateAccount id pk →
          t.execute edv st g = some (create_account st id pk)) ∧
    (∀ (st : Accounts) (id : AccountId) (pk : PublicKey),
        create_account st id pk = createAccountState st id .User pk) ∧
    ∀ (st : Accounts) (id : AccountId) (pk : PublicKey), getAccount st id = none →
      create_account st id pk = (st ++ [(id, Account.new .User pk)], .ok ()) ∧
      getAccount (create_account st id pk).fst id =
        some { account_type := .User, balance := 0, public_key := pk } ∧
      ∀ other, other ≠ id →
        getAccount (create_account st id pk).fst other = getAccount st other := by
  refine ⟨?_, fun st id pk => rfl, ?_⟩
  · intro edv t st g id pk ht
    simp [Transaction.execute, Transaction.applyData, ht,
      TransactionData.isCreateAccount]
  · intro st id pk hnone
    refine ⟨?_, ?_, ?_⟩
    · simp [create_account, createAccountState, hnone]
    · simp [create_account, createAccountState, hnone, getAccount_append_single,
        Account.new]
    · intro other hother
      simp [create_account, createAccountState, hnone, getAccount_append_single]
      cases hg : getAccount st other
      · simp [hg]
        exact fun h => hother h.symm
      · simp [hg]

/-- C10 witness: creating "alice" in the empty table through `execute`. -/
theorem create_account_user_zero_balance_witness :
    Transaction.execute edv0 txAlice [] false = some (create_account [] "alice" 7) ∧
      getAccount (create_account [] "alice" 7).fst "alice" =
        some { account_type := .User, balance := 0, public_key := 7 } :=
  ⟨create_account_user_zero_balance.1 edv0 txAlice [] false "alice" 7 rfl,
    (create_account_user_zero_balance.2.2 [] "alice" 7 rfl).2.1⟩

/-! ## Block verification (C4) -/

theorem blockHash_hash_irrel (b : Block) (x : Option Hash) :
    blockHash { b with hash := x } = blockHash b := rfl

theorem update_hash_verify (b : Block) : b.update_hash.verify = true := by
  simp [Block.update_hash, Block.verify, blockHash_hash_irrel]

theorem applyOp_verify (b : Block) (op : BlockOp) : (applyOp b op).verify = true := by
  cases op <;>
    simp [applyOp, Block.set_nonce, Block.add_transaction, update_hash_verify]

theorem applyOps_cons_verify (b : Block) (op : BlockOp) (ops : List BlockOp) :
    (applyOps b (op :: ops)).verify = true := by
  induction ops generalizing b op with
  | nil => simpa [applyOps] using applyOp_verify b op
  | cons op2 rest ih => simpa [applyOps] using ih (applyOp b op) op2

def blkC4 : Block := ((Block.new none).set_nonce 1).add_transaction txAlice

def blkC4sig : Block := { blkC4 with transactions := [txAlice.add_signature 3] }

/-- C4 counterexample: `blkC4sig` changes `blkC4`'s transaction list (a
signature is attached to the stored transaction) without recomputing the
cached hash, yet `verify()` stays true, because the block hash digests
transaction hashes and the transaction hash excludes the signature.  The
claim that changing the transaction list without recomputing the cache
always makes `verify()` false is therefore refuted. -/
theorem verify_survives_tx_list_change :
    blkC4.verify = true ∧ blkC4sig.transactions ≠ blkC4.transactions ∧
      blkC4sig.hash = blkC4.hash ∧ blkC4sig.verify = true := by decide

/-- C4 amended: `verify()` is true iff a cached hash is present and equals a
fresh recomputation; a fresh block fails `verify()`; a block mutated only
through `set_nonce`/`add_transaction` passes; and changing the predecessor
hash, the nonce, or the transaction list in a way that changes the induced
list of transaction hashes, without recomputing the cache, makes
`verify()` false (a change preserving every transaction hash, such as
attaching a signature, preserves `verify()`). -/
theorem verify_characterization :
    (∀ b : Block, b.verify = true ↔ b.hash = some (blockHash b)) ∧
    (∀ p, (Block.new p).verify = false) ∧
    (∀ p ops, ops ≠ [] → (applyOps (Block.new p) ops).verify = true) ∧
    (∀ (b : Block) (p1 : Option Hash), b.verify = true → p1 ≠ b.prev_hash →
        Block.verify { b with prev_hash := p1 } = false) ∧
    (∀ (b : Block) (n1 : Nat), b.verify = true → n1 ≠ b.nonce →
        Block.verify { b with nonce := n1 } = false) ∧
    ∀ (b : Block) (ts : List Transaction), b.verify = true →
      ts.map Transaction.hash ≠ b.transactions.map Transaction.hash →
      Block.verify { b with transactions := ts } = false := by
  refine ⟨verify_eq_true_iff, ?_, ?_, ?_, ?_, ?_⟩
  · intro p
    simp [Block.new, Block.verify]
  · intro p ops hne
    cases ops with
    | nil => cases hne rfl
    | cons op rest => exact applyOps_cons_verify (Block.new p) op rest
  · intro b p1 hv hne
    have hb : b.hash = some (blockHash b) := (verify_eq_true_iff b).mp hv
    have key : blockHash b ≠
        blockHash { b with prev_hash := p1, hash := some (blockHash b) } := by
      intro hEq
      exact hne ((blockHash_injective _ _ hEq).1).symm
    simp [Block.verify, hb, key]
  · intro b n1 hv hne
    have hb : b.hash = some (blockHash b) := (verify_eq_true_iff b).mp hv
    have key : blockHash b ≠
        blockHash { b with nonce := n1, hash := some (blockHash b) } := by
      intro hEq
      exact hne ((blockHash_injective _ _ hEq).2.1).symm
    simp [Block.verify, hb, key]
  · intro b ts hv hne
    have hb : b.hash = some (blockHash b) := (verify_eq_true_iff b).mp hv
    have key : blockHash b ≠
        blockHash { b with transactions := ts, hash := some (blockHash b) } := by
      intro hEq
      exact hne ((blockHash_injective _ _ hEq).2.2).symm
    simp [Block.verify, hb, key]

/-- C4 witness: a mutated-only-through-mutators block passes, and an
in-place nonce change makes verification fail. -/
theorem verify_characterization_witness :
    (applyOps (Block.new none) [BlockOp.setNonce 1]).verify = true ∧
      Block.verify { blkC4 with nonce := 2 } = false :=
  ⟨verify_characterization.2.2.1 none [BlockOp.setNonce 1] (by simp),
    verify_characterization.2.2.2.2.1 blkC4 2 (by decide) (by decide)⟩

/-! ## Transfer semantics (C6) -/

/-- C6: the transfer order of checks and effects — sender absence, checked
debit (with the pre-call state returned verbatim on InsufficientBalance),
receiver absence, checked credit — and the link from `execute` for a
Transfer with its sender id set. -/
theorem transfer_spec_thm (st : Accounts) (f toId : AccountId) (amount : Balance) :
    (getAccount st f = none →
        transfer st f toId amount = (st, .error "Invalid sender address.")) ∧
    (∀ acc, getAccount st f = some acc → acc.balance < amount →
        transfer st f toId amount = (st, .error "Insufficient balance")) ∧
    (∀ acc, getAccount st f = some acc → amount ≤ acc.balance →
        getAccount (setBalance st f (acc.balance - amount)) toId = none →
        transfer st f toId amount =
          (setBalance st f (acc.balance - amount), .error "Invalid receiver address.")) ∧
    (∀ acc acc2, getAccount st f = some acc → amount ≤ acc.balance →
        getAccount (setBalance st f (acc.balance - amount)) toId = some acc2 →
        2 ^ 128 ≤ acc2.balance + amount →
        transfer st f toId amount =
          (setBalance st f (acc.balance - amount), .error "Balance overflow.")) ∧
    (∀ acc acc2, getAccount st f = some acc → amount ≤ acc.balance →
        getAccount (setBalance st f (acc.balance - amount)) toId = some acc2 →
        acc2.balance + amount < 2 ^ 128 →
        transfer st f toId amount =
          (setBalance (setBalance st f (acc.balance - amount)) toId
              (acc2.balance + amount), .ok ())) ∧
    ∀ (edv : PublicKey → TxHash → Signature → Bool) (t : Transaction),
      t.data = .Transfer toId amount → t.sender = some f →
        t.execute edv st true = some (transfer st f toId amount) := by
  refine ⟨?_, ?_, ?_, ?_, ?_, ?_⟩
  · intro h
    simp [transfer, h]
  · intro acc h hlt
    simp [transfer, h, checked_sub, Nat.not_le.mpr hlt]
  · intro acc h hle h2
    simp [transfer, h, checked_sub, hle, h2]
  · intro acc acc2 h hle h2 hof
    have hca : checked_add acc2.balance amount = none := by
      unfold checked_add
      exact if_neg (Nat.not_lt.mpr hof)
    simp [transfer, h, checked_sub, hle, h2, hca]
  · intro acc acc2 h hle h2 hlt
    have hca : checked_add acc2.balance amount = some (acc2.balance + amount) := by
      unfold checked_add
      exact if_pos hlt
    simp [transfer, h, checked_sub, hle, h2, hca]
  · intro edv t ht hs
    simp [Transaction.execute, Transaction.applyData, ht, hs]

def stC6 : Accounts :=
  [("satoshi", { account_type := .User, balance := 100, public_key := 5 }),
   ("alice", { account_type := .User, balance := 0, public_key := 6 })]

/-- C6 witness: transferring 101 from a balance of 100 fails with
InsufficientBalance and leaves the table exactly as before. -/
theorem transfer_spec_thm_witness :
    transfer stC6 "satoshi" "alice" 101 = (stC6, .error "Insufficient balance") ∧
      getAccount stC6 "satoshi" =
        some { account_type := .User, balance := 100, public_key := 5 } :=
  ⟨(transfer_spec_thm stC6 "satoshi" "alice" 101).2.1
      { account_type := .User, balance := 100, public_key := 5 } rfl (by decide),
    rfl⟩

/-! ## Empty-block policy (C8) -/

theorem exec_wrap_ne_empty_msg (e : Error) :
    "Error during executing transactions: " ++ e ≠ "Block has 0 transaction." := by
  intro h
  have h2 := congrArg String.length h
  rw [String.length_append] at h2
  have h3 : ("Error during executing transactions: " : String).length = 37 := rfl
  have h4 : ("Block has 0 transaction." : String).length = 24 := rfl
  omega

/-- C8: `append_block` fails with the EmptyBlock error exactly when the
chain is non-empty and the (hash-valid) block holds zero transactions; a
zero-transaction block with a valid cached hash on an empty chain is
accepted as genesis. -/
theorem empty_block_policy :
    (∀ (edv : PublicKey → TxHash → Signature → Bool) (bc : Blockchain)
        (block : Block), block.verify = true → bc.blocks ≠ [] →
        block.transactions = [] →
        bc.append_block edv block = some (bc, .error "Block has 0 transaction.")) ∧
    (∀ (edv : PublicKey → TxHash → Signature → Bool) (bc : Blockchain)
        (block : Block), block.verify = true → bc.blocks = [] →
        block.transactions = [] →
        bc.append_block edv block = some ({ bc with blocks := [block] }, .ok ())) ∧
    ∀ (edv : PublicKey → TxHash → Signature → Bool) (bc : Blockchain)
      (block : Block) (bc1 : Blockchain),
      bc.append_block edv block = some (bc1, .error "Block has 0 transaction.") →
      block.verify = true ∧ bc.blocks ≠ [] ∧ block.transactions = [] := by
  refine ⟨?_, ?_, ?_⟩
  · intro edv bc block hv hne htx
    have hlen : ¬ bc.blocks.length = 0 := by
      simpa [List.length_eq_zero] using hne
    simp [Blockchain.append_block, hv, hlen, htx]
  · intro edv bc block hv hnil htx
    simp [Blockchain.append_block, hv, hnil, htx, execTxs]
  · intro edv bc block bc1 h
    unfold Blockchain.append_block at h
    split at h
    · rename_i hv
      simp only [Option.some.injEq, Prod.mk.injEq, Except.error.injEq] at h
      exact absurd h.2 (by decide)
    · rename_i hv
      have hv' : block.verify = true := by
        revert hv
        cases block.verify <;> simp
      split at h
      · rename_i hcond
        refine ⟨hv', ?_, ?_⟩
        · intro hnil
          simp [hnil] at hcond
        · have := (Bool.and_eq_true _ _).mp hcond
          have h2 := this.2
          simpa [List.length_eq_zero] using of_decide_eq_true h2
      · split at h
        · exact absurd h (by simp)
        · rename_i e' heq
          simp only [Option.some.injEq, Prod.mk.injEq, Except.error.injEq] at h
          exact absurd h.2 (exec_wrap_ne_empty_msg e')
        · simp at h

def blkE : Block := (Block.new none).set_nonce 1

def blkE2 : Block := (Block.new (some (blockHash blkE))).set_nonce 2

/-- C8 witness: an empty verified block is accepted as genesis on the empty
chain, and a second empty verified block is rejected with the EmptyBlock
error. -/
theorem empty_block_policy_witness :
    bc0.append_block edv0 blkE = some ({ bc0 with blocks := [blkE] }, .ok ()) ∧
      Blockchain.append_block edv0 { bc0 with blocks := [blkE] } blkE2 =
        some ({ bc0 with blocks := [blkE] }, .error "Block has 0 transaction.") :=
  ⟨empty_block_policy.2.1 edv0 bc0 blkE (by decide) rfl rfl,
    empty_block_policy.1 edv0 { bc0 with blocks := [blkE] } blkE2 (by decide)
      (by simp) rfl⟩

/-! ## Signature checking (C7) -/

/-- C7: `check_signature` reports SignatureMissing, FromUnset,
InvalidSenderAddress, SignatureInvalid in that fixed order, and `execute`
runs the check for every transaction outside genesis except CreateAccount
(exempt unconditionally), while genesis executions skip it entirely. -/
theorem check_signature_order :
    (∀ (edv : PublicKey → TxHash → Signature → Bool) (t : Transaction)
        (st : Accounts),
        t.check_signature edv st = .error "Signature is missing." ↔
          t.signature = none) ∧
    (∀ (edv : PublicKey → TxHash → Signature → Bool) (t : Transaction)
        (st : Accounts) (s : Signature), t.signature = some s → t.sender = none →
        t.check_signature edv st = .error "Tx \x60from\x60 is not defined.") ∧
    (∀ (edv : PublicKey → TxHash → Signature → Bool) (t : Transaction)
        (st : Accounts) (s : Signature) (f : AccountId), t.signature = some s →
        t.sender = some f → getAccount st f = none →
        t.check_signature edv st = .error "Account \x60from\x60 not exist.") ∧
    (∀ (edv : PublicKey → TxHash → Signature → Bool) (t : Transaction)
        (st : Accounts) (s : Signature) (f : AccountId) (acc : Account),
        t.signature = some s → t.sender = some f → getAccount st f = some acc →
        t.check_signature edv st =
          if edv acc.public_key t.hash s then .ok ()
          else .error "Invalid signature.") ∧
    (∀ (edv : PublicKey → TxHash → Signature → Bool) (t : Transaction)
        (st : Accounts), t.execute edv st true = t.applyData st true) ∧
    (∀ (edv : PublicKey → TxHash → Signature → Bool) (t : Transaction)
        (st : Accounts) (g : Bool), t.data.isCreateAccount = true →
        t.execute edv st g = t.applyData st g) ∧
    (∀ (edv : PublicKey → TxHash → Signature → Bool) (t : Transaction)
        (st : Accounts) (e : Error), t.data.isCreateAccount = false →
        t.check_signature edv st = .error e →
        t.execute edv st false = some (st, .error e)) ∧
    ∀ (edv : PublicKey → TxHash → Signature → Bool) (t : Transaction)
      (st : Accounts), t.data.isCreateAccount = false →
      t.check_signature edv st = .ok () →
      t.execute edv st false = t.applyData st false := by
  refine ⟨?_, ?_, ?_, ?_, ?_, ?_, ?_, ?_⟩
  · intro edv t st
    cases hsig : t.signature with
    | none => simp [Transaction.check_signature, hsig]
    | some s =>
      cases hs : t.sender with
      | none => simp [Transaction.check_signature, hsig, hs]
      | some f =>
        cases hacc : getAccount st f with
        | none => simp [Transaction.check_signature, hsig, hs, hacc]
        | some acc =>
          by_cases hv : edv acc.public_key t.hash s <;>
            simp [Transaction.check_signature, hsig, hs, hacc, hv]
  · intro edv t st s hsig hs
    simp [Transaction.check_signature, hsig, hs]
  · intro edv t st s f hsig hs hacc
    simp [Transaction.check_signature, hsig, hs, hacc]
  · intro edv t st s f acc hsig hs hacc
    simp [Transaction.check_signature, hsig, hs, hacc]
  · intro edv t st
    simp [Transaction.execute]
  · intro edv t st g hca
    simp [Transaction.execute, hca]
  · intro edv t st e hca hck
    simp [Transaction.execute, hca, hck]
  · intro edv t st hca hck
    simp [Transaction.execute, hca, hck]

/-- C7 witness: concrete instances of the first error, the genesis
exemption and the CreateAccount exemption. -/
theorem check_signature_order_witness :
    Transaction.check_signature edv0 txAlice stC6 =
        .error "Signature is missing." ∧
      Transaction.execute edv0 txAlice stC6 false =
        Transaction.applyData txAlice stC6 false :=
  ⟨(check_signature_order.1 edv0 txAlice stC6).mpr rfl,
    check_signature_order.2.2.2.2.2.1 edv0 txAlice stC6 false rfl⟩

/-! ## Totality of execute / append_block (C2) -/

theorem applyData_eq_none_iff (t : Transaction) (st : Accounts) (g : Bool) :
    t.applyData st g = none ↔ t.data.isTransfer = true ∧ t.sender = none := by
  obtain ⟨n, ts, d, s, sig⟩ := t
  cases d <;> cases s <;>
    simp [Transaction.applyData, TransactionData.isTransfer]

theorem check_ok_sender_some (edv : PublicKey → TxHash → Signature → Bool)
    (t : Transaction) (st : Accounts)
    (h : t.check_signature edv st = .ok ()) : t.sender ≠ none := by
  intro hs
  cases hsig : t.signature with
  | none => simp [Transaction.check_signature, hsig] at h
  | some s => simp [Transaction.check_signature, hsig, hs] at h

theorem execute_none_imp (edv : PublicKey → TxHash → Signature → Bool)
    (t : Transaction) (st : Accounts) (g : Bool)
    (h : t.execute edv st g = none) :
    t.data.isTransfer = true ∧ t.sender = none ∧ g = true := by
  cases g with
  | true =>
    have happ : t.applyData st true = none := by
      simpa [Transaction.execute] using h
    have h2 := (applyData_eq_none_iff t st true).mp happ
    exact ⟨h2.1, h2.2, rfl⟩
  | false =>
    exfalso
    by_cases hca : t.data.isCreateAccount = true
    · have happ : t.applyData st false = none := by
        simpa [Transaction.execute, hca] using h
      have h2 := (applyData_eq_none_iff t st false).mp happ
      obtain ⟨n, ts, d, s, sig⟩ := t
      cases d <;>
        simp_all [TransactionData.isTransfer, TransactionData.isCreateAccount]
    · have hca' : t.data.isCreateAccount = false := by
        simpa using hca
      simp only [Transaction.execute, hca', Bool.not_false, Bool.and_true,
        Bool.not_true] at h
      cases hck : t.check_signature edv st with
      | error e => simp [hck] at h
      | ok u =>
        cases u
        simp only [hck] at h
        have h2 := (applyData_eq_none_iff t st false).mp h
        exact check_ok_sender_some edv t st hck h2.2

theorem execute_none_intro (edv : PublicKey → TxHash → Signature → Bool)
    (t : Transaction) (st : Accounts) (htr : t.data.isTransfer = true)
    (hs : t.sender = none) : t.execute edv st true = none := by
  have : t.applyData st true = none :=
    (applyData_eq_none_iff t st true).mpr ⟨htr, hs⟩
  simpa [Transaction.execute] using this

theorem execTxs_ne_none (edv : PublicKey → TxHash → Signature → Bool)
    (txs : List Transaction) (g : Bool)
    (hall : ∀ tx ∈ txs, tx.data.isTransfer = true → tx.sender ≠ none) :
    ∀ st, execTxs edv txs st g ≠ none := by
  induction txs with
  | nil =>
    intro st h
    simp [execTxs] at h
  | cons tx rest ih =>
    intro st h
    rw [execTxs] at h
    cases hex : tx.execute edv st g with
    | none =>
      have h2 := execute_none_imp edv tx st g hex
      exact hall tx (by simp) h2.1 h2.2.1
    | some r =>
      rw [hex] at h
      obtain ⟨st1, r2⟩ := r
      cases r2 with
      | error e => simp at h
      | ok u =>
        exact ih (fun tx2 htx2 => hall tx2 (by simp [htx2])) st1 h

def txNoSender : Transaction := Transaction.new (.Transfer "bob" 1) none

/-- C2 counterexample: executing a Transfer whose sender id is unset with
`isGenesis = true` skips the signature check and reaches the source's
`self.from.clone().unwrap()`, which panics (`none` in the model) — the
claim that execute never panics, for every transaction kind and both
values of isGenesis, is refuted. -/
theorem execute_transfer_unset_sender_panics :
    Transaction.execute edv0 txNoSender [] true = none := rfl

/-- C2 amended: execute returns an ordinary value except exactly when the
transaction is a Transfer with unset sender executed with
isGenesis = true (the unwrap panic); append_block returns an ordinary
value whenever every Transfer in the block has its sender set; and a
MintInitialSupply whose credit would exceed the u128 maximum returns Ok
with the balance wrapped modulo 2^128 rather than a fatal stop or an
error. -/
theorem execute_totality :
    (∀ (edv : PublicKey → TxHash → Signature → Bool) (t : Transaction)
        (st : Accounts) (g : Bool), t.execute edv st g = none →
        t.data.isTransfer = true ∧ t.sender = none ∧ g = true) ∧
    (∀ (edv : PublicKey → TxHash → Signature → Bool) (t : Transaction)
        (st : Accounts), t.data.isTransfer = true → t.sender = none →
        t.execute edv st true = none) ∧
    (∀ (edv : PublicKey → TxHash → Signature → Bool) (bc : Blockchain)
        (block : Block),
        (∀ tx ∈ block.transactions, tx.data.isTransfer = true → tx.sender ≠ none) →
        bc.append_block edv block ≠ none) ∧
    ∀ (st : Accounts) (toId : AccountId) (amount : Balance) (acc : Account),
      getAccount st toId = some acc →
      mint_initial_supply st toId amount true =
        (setBalance st toId ((acc.balance + amount) % 2 ^ 128), .ok ()) := by
  refine ⟨execute_none_imp, execute_none_intro, ?_, ?_⟩
  · intro edv bc block hall h
    unfold Blockchain.append_block at h
    split at h
    · simp at h
    · split at h
      · simp at h
      · split at h
        · rename_i heq
          exact execTxs_ne_none edv block.transactions _ hall bc.accounts heq
        · simp at h
        · simp at h
  · intro st toId amount acc hacc
    simp [mint_initial_supply, hacc]

/-- C2 witness: the panic instance and a panic-free append. -/
theorem execute_totality_witness :
    (Transaction.execute edv0 txNoSender stC6 true = none ∧
        TransactionData.isTransfer txNoSender.data = true ∧ txNoSender.sender = none) ∧
      Blockchain.append_block edv0 bc0 blkAA ≠ none :=
  ⟨⟨execute_totality.2.1 edv0 txNoSender stC6 rfl rfl, rfl, rfl⟩,
    execute_totality.2.2.1 edv0 bc0 blkAA (by
      intro tx htx htr
      simp [blkAA, Block.add_transaction, Block.set_nonce, Block.update_hash,
        Block.new, txAlice, Transaction.new] at htx
      simp [htx, TransactionData.isTransfer] at htr)⟩

/-! ## Chain validation (C5) -/

theorem verify_true_hash_getD (b : Block) (hv : b.verify = true) :
    b.hash.getD default = blockHash b := by
  rw [(verify_eq_true_iff b).mp hv]
  rfl

theorem validateLoop_eq (bs : List Block) :
    ∀ (total blockNum : Nat) (newerPrev : Option Hash),
      validateLoop total blockNum newerPrev bs =
        validateLoopSpec total blockNum newerPrev bs := by
  induction bs with
  | nil => intro total blockNum newerPrev; rfl
  | cons b rest ih =>
    intro total blockNum newerPrev
    by_cases hv : b.verify = true
    · have hgd : b.hash.getD default = blockHash b := verify_true_hash_getD b hv
      simp only [validateLoop, validateLoopSpec, hgd, ih]
    · have hv' : b.verify = false := by
        simpa using hv
      simp only [validateLoop, validateLoopSpec, hv', Bool.not_false, if_true]

/-- C5: `validate` is exactly the spec-described walk — newest to genesis,
numbered downward from the chain length to 1, returning the first
violation among a failed verify, a non-genesis block without predecessor
hash, a genesis block with one, and a linkage break at every non-newest
position, else success.  Both sides are pure functions of the blockchain
value, so `validate` never mutates the blockchain. -/
theorem validate_eq_spec (bc : Blockchain) : bc.validate = bc.validateSpec :=
  validateLoop_eq bc.blocks bc.blocks.length bc.blocks.length none
